
import Mathlib

/-!  Verification of the order/seat/selection lifecycle of the `orders`
Django application (src/orders).  The Python views are shallowly embedded
as pure functions over an explicit relational state (`DB`); each view
returns the successor state together with an abstract response. -/

namespace Orders

/-! ### Python string primitives used by the views

The seat labels are Python strings; the views use `str(i)`, `int(s)`,
`s.isdigit()` and `s.strip()` on them.  We embed these primitives over
`String` together with the round-trip facts the proofs need. -/

/-- Decimal digit character for a value below ten, as produced by Python
when printing an integer. -/
def digitChar (d : Nat) : Char :=
  match d with
  | 0 => '0'
  | 1 => '1'
  | 2 => '2'
  | 3 => '3'
  | 4 => '4'
  | 5 => '5'
  | 6 => '6'
  | 7 => '7'
  | 8 => '8'
  | _ => '9'

/-- Decimal digit worker: structural recursion on a fuel bound so terms
reduce; the fuel never runs out when it exceeds the number. -/
def natDigitsAux : Nat → Nat → List Char
  | 0, _ => []
  | fuel + 1, n =>
    if n < 10 then [digitChar n]
    else natDigitsAux fuel (n / 10) ++ [digitChar (n % 10)]

/-- Decimal digit list of a natural number (most significant first), the
character content of Python str(n) for n greater or equal zero. -/
def natDigits (n : Nat) : List Char :=
  natDigitsAux (n + 1) n

/-- Embedding of Python str(n) for a natural number. -/
def natStr (n : Nat) : String :=
  String.mk (natDigits n)

/-- Embedding of Python str(i) for an arbitrary integer. -/
def intStr (i : Int) : String :=
  if i < 0 then "-" ++ natStr i.natAbs else natStr i.natAbs

/-- Embedding of Python s.isdigit(): nonempty and all characters digits. -/
def pyIsDigit (s : String) : Bool :=
  !s.data.isEmpty && s.data.all Char.isDigit

/-- Value of a decimal digit string (helper for the embedding of int(s)). -/
def pyToNat (s : String) : Nat :=
  s.data.foldl (fun a c => 10 * a + (c.toNat - 48)) 0

/-- Embedding of Python int(s) on the strings the views feed it
(an optional leading minus sign followed by decimal digits). -/
def pyIntOfStr (s : String) : Int :=
  if s.data.head? = some '-' then -(pyToNat (String.mk s.data.tail) : Int)
  else (pyToNat s : Int)

/-- Python whitespace test used by str.strip (the characters relevant here). -/
def pyIsSpace (c : Char) : Bool :=
  c == ' ' || c == '\t' || c == '\n' || c == '\r' || c == '\x0b' || c == '\x0c'

/-- Embedding of Python s.strip(): remove leading and trailing whitespace. -/
def pyStrip (s : String) : String :=
  String.mk (((s.data.dropWhile pyIsSpace).reverse.dropWhile pyIsSpace).reverse)

/-! ### Data model (src/orders/models.py)

Rows of the relations the claims touch.  Catalog rows (StaffMember,
MenuItem, Modifier, Temperature) only matter through their primary keys,
so they are kept as key lists.  StaffLog is a write-only audit relation
never read back by the views and is not part of the state. -/

/-- A Table row: number/room plus the optional Party link. -/
structure Table where
  id : Nat
  roomId : Nat
  partyId : Option Nat
deriving Repr, DecidableEq

/-- An Order row (opened_at collapses the timestamp to a Nat tick). -/
structure Order where
  id : Nat
  tableId : Nat
  partyId : Option Nat
  openedByStaff : Option Nat
  openedAt : Nat
  printed : Bool
deriving Repr, DecidableEq

/-- A Seat row: label string plus the optional assigned staff member. -/
structure Seat where
  id : Nat
  orderId : Nat
  label : String
  assignedTo : Option Nat
deriving Repr, DecidableEq

/-- A SeatSelection row; the two many-to-many link tables are carried as
finite sets of catalog keys. -/
structure SeatSelection where
  id : Nat
  seatId : Nat
  itemId : Nat
  notes : String
  modifiers : Finset Nat
  temperatures : Finset Nat
deriving DecidableEq

/-- The database state: the relations plus a fresh primary-key supply. -/
structure DB where
  tables : List Table
  staff : List Nat
  menuItems : List Nat
  modifierCatalog : List Nat
  temperatureCatalog : List Nat
  orders : List Order
  seats : List Seat
  selections : List SeatSelection
  nextId : Nat
deriving DecidableEq

/-- Abstract response of a view: which redirect/JSON/message outcome the
request gets.  Conflict responses carry the seat numbers they name. -/
inductive Resp where
  | loginRedirect
  | notFound
  | serverError
  | invalidRange (tableId : Nat)
  | noOrderRedirect (tableId : Nat)
  | conflict (labels : List Int) (tableId : Nat)
  | started (tableId : Nat) (numSeats : Nat)
  | joined (tableId : Nat) (numSeats : Nat)
  | closed (roomId : Nat)
  | seatAdded (tableId : Nat) (newSeatId : Nat)
  | seatRemoved (tableId : Nat)
  | selectionUpdated (tableId : Nat) (activeSeatId : Nat)
  | selectionRemoved (tableId : Nat)
  | jsonOk
  | jsonMissingParams
deriving Repr, DecidableEq

/-- Lookup by primary key (get_object_or_404 / objects.get). -/
def findTable (σ : DB) (id : Nat) : Option Table :=
  σ.tables.find? (fun t => t.id == id)

/-- Lookup of an Order row by primary key. -/
def findOrder (σ : DB) (id : Nat) : Option Order :=
  σ.orders.find? (fun o => o.id == id)

/-- Lookup of a Seat row by primary key. -/
def findSeat (σ : DB) (id : Nat) : Option Seat :=
  σ.seats.find? (fun st => st.id == id)

/-- Lookup of a SeatSelection row by primary key. -/
def findSelection (σ : DB) (id : Nat) : Option SeatSelection :=
  σ.selections.find? (fun sl => sl.id == id)

/-- Order.objects.filter(table=table, printed=False).first(): with the model
Meta ordering by descending opened_at, first() returns the open order of the
table that was opened last (earliest row wins a timestamp tie). -/
def firstOpenOrder (σ : DB) (tableId : Nat) : Option Order :=
  (σ.orders.filter (fun o => o.tableId == tableId && !o.printed)).foldl
    (fun acc o =>
      match acc with
      | none => some o
      | some b => if o.openedAt > b.openedAt then some o else some b)
    none

/-- Python session truthiness of request.session.get: a stored id of 0 is
falsy exactly like an absent key. -/
def truthyId (sess : Option Nat) : Option Nat :=
  match sess with
  | some i => if i = 0 then none else some i
  | none => none

/-- Embedding of the staff_required decorator (src/orders/decorators.py):
run the view when the session holds a truthy staff_id, redirect to the
login page otherwise. -/
def staff_required (view : Option Nat → DB → DB × Resp) (sess : Option Nat)
    (σ : DB) : DB × Resp :=
  match truthyId sess with
  | some _ => view sess σ
  | none => (σ, Resp.loginRedirect)

/-- Python range(lo, hi + 1): the integers from lo to hi inclusive. -/
def intRange (lo hi : Int) : List Int :=
  (List.range (hi + 1 - lo).toNat).map (fun (k : Nat) => lo + (k : Int))

/-- Python max(xs, default=d). -/
def pyMaxD (xs : List Int) (d : Int) : Int :=
  match xs with
  | [] => d
  | x :: rest => rest.foldl max x

/-- Python x or d on an optional integer (0 and None are falsy). -/
def pyOr (x : Option Int) (d : Int) : Int :=
  match x with
  | some v => if v = 0 then d else v
  | none => d

/-- Modelled from the spec: the helper existing_numeric_labels(order) is
called by join_order in src/orders/views.py but its definition is not among
the sources; per the spec it computes the currently occupied numeric seat
labels of the order, ignoring non-numeric labels for collision purposes. -/
def existing_numeric_labels (σ : DB) (orderId : Nat) : List Int :=
  (σ.seats.filter (fun st => st.orderId == orderId && pyIsDigit st.label)).map
    (fun st => pyIntOfStr st.label)

/-! ### The views (src/orders/views.py)

Each POST parameter is an Option (Option Int): the outer layer is key
presence, the inner layer is whether Python int() parses the raw string.
The transaction.atomic block of start_order is given all-or-nothing
semantics through an insertOk oracle deciding whether the storage accepts
the bulk seat insert; on failure the whole block, Order row included, is
rolled back and the request fails. -/

/-- Transactional body of start_order: create the Order row and its batch
of Seats, all of it or nothing. -/
def create_order_with_seats (σ : DB) (table : Table) (staffId : Nat) (now : Nat)
    (seatNumbers : List Int) (insertOk : Bool) : DB × Resp :=
  let order : Order :=
    { id := σ.nextId, tableId := table.id, partyId := table.partyId
      openedByStaff := some staffId, openedAt := now, printed := false }
  let seats : List Seat := seatNumbers.enum.map (fun pe =>
    { id := σ.nextId + 1 + pe.1, orderId := order.id, label := intStr pe.2
      assignedTo := none })
  if insertOk then
    ({ σ with orders := σ.orders ++ [order], seats := σ.seats ++ seats
              nextId := σ.nextId + 1 + seats.length },
      Resp.started table.id seats.length)
  else (σ, Resp.serverError)

/-- Body of the start_order view, before the staff_required decorator. -/
def start_order_inner (tableId : Nat) (myStart myEnd seatCount : Option (Option Int))
    (now : Nat) (insertOk : Bool) (sess : Option Nat) (σ : DB) : DB × Resp :=
  match findTable σ tableId with
  | none => (σ, Resp.notFound)
  | some table =>
    match truthyId sess with
    | none => (σ, Resp.loginRedirect)
    | some staffId =>
      if staffId ∈ σ.staff then
        match seatCount with
        | some none => (σ, Resp.serverError)
        | _ =>
          let seat_count : Int :=
            match seatCount with
            | some (some v) => v
            | _ => 12
          match myStart, myEnd with
          | some ps, some pe =>
            match ps, pe with
            | some s, some e =>
              create_order_with_seats σ table staffId now (intRange s e) insertOk
            | _, _ => (σ, Resp.invalidRange table.id)
          | _, _ =>
            create_order_with_seats σ table staffId now (intRange 1 seat_count)
              insertOk
      else (σ, Resp.serverError)

/-- The start_order view: its body wrapped in the staff_required guard. -/
def start_order (tableId : Nat) (myStart myEnd seatCount : Option (Option Int))
    (now : Nat) (insertOk : Bool) : Option Nat → DB → DB × Resp :=
  staff_required (start_order_inner tableId myStart myEnd seatCount now insertOk)

/-- Field cleaning of an IntegerField(min_value=mn, required=False):
an absent field cleans to none, a present value must parse and reach the
minimum.  The outer none is a field validation error. -/
def cleanIntField (mn : Int) (x : Option (Option Int)) : Option (Option Int) :=
  match x with
  | none => some none
  | some none => none
  | some (some v) => if v < mn then none else some (some v)

/-- StartOrderForm.is_valid plus cleaned_data (src/orders/forms.py): the
three fields have min_value 1, start and end come both or neither, start
must not exceed end, and end must not exceed a supplied seat_count. -/
def startOrderFormClean (seatCount myStart myEnd : Option (Option Int)) :
    Option (Option Int × Option Int × Option Int) :=
  match cleanIntField 1 seatCount, cleanIntField 1 myStart, cleanIntField 1 myEnd with
  | some c, some s, some e =>
    match s, e with
    | some sv, some ev =>
      if sv > ev then none
      else
        match c with
        | some cv => if ev > cv then none else some (c, s, e)
        | none => some (c, s, e)
    | some _, none => none
    | none, some _ => none
    | none, none => some (c, none, none)
  | _, _, _ => none

/-- Seat batch added by join_order for the requested numbers, assigned to
the acting staff member (or unassigned without a session). -/
def joinSeats (σ : DB) (orderId : Nat) (assigned : Option Nat)
    (seatNumbers : List Int) : List Seat :=
  seatNumbers.enum.map (fun pe =>
    { id := σ.nextId + pe.1, orderId := orderId, label := intStr pe.2
      assignedTo := assigned })

/-- Seat-creating tail of join_order once the staff member is resolved. -/
def join_order_create (σ : DB) (table : Table) (order : Order)
    (cleanStart cleanEnd : Option Int) (seat_count : Int)
    (assigned : Option Nat) : DB × Resp :=
  match cleanStart, cleanEnd with
  | some s, some e =>
    let occupied := existing_numeric_labels σ order.id
    let requested := intRange s e
    let overlap := requested.filter (fun i => decide (i ∈ occupied))
    if overlap.isEmpty then
      let seats := joinSeats σ order.id assigned requested
      ({ σ with seats := σ.seats ++ seats, nextId := σ.nextId + seats.length },
        Resp.joined table.id seats.length)
    else (σ, Resp.conflict overlap table.id)
  | _, _ =>
    let existing := existing_numeric_labels σ order.id
    let wanted := (intRange 1 seat_count).filter
      (fun i => !(decide (pyIntOfStr (intStr i) ∈ existing)))
    let seats := joinSeats σ order.id assigned wanted
    ({ σ with seats := σ.seats ++ seats, nextId := σ.nextId + seats.length },
      Resp.joined table.id seats.length)

/-- The join_order view: needs an existing open order, validates the form,
rejects an overlapping explicit range naming the clashes, silently skips
duplicates on the count path. -/
def join_order (tableId : Nat) (fSeatCount fStart fEnd : Option (Option Int))
    (sess : Option Nat) (σ : DB) : DB × Resp :=
  match findTable σ tableId with
  | none => (σ, Resp.notFound)
  | some table =>
    match firstOpenOrder σ table.id with
    | none => (σ, Resp.noOrderRedirect table.id)
    | some order =>
      match startOrderFormClean fSeatCount fStart fEnd with
      | none => (σ, Resp.invalidRange table.id)
      | some cleaned =>
        let seat_count := pyOr cleaned.1 12
        match truthyId sess with
        | some staffId =>
          if staffId ∈ σ.staff then
            join_order_create σ table order cleaned.2.1 cleaned.2.2 seat_count
              (some staffId)
          else (σ, Resp.serverError)
        | none =>
          join_order_create σ table order cleaned.2.1 cleaned.2.2 seat_count none

/-- Cascading delete of an Order row with its Seats and their Selections. -/
def deleteOrderCascade (σ : DB) (oid : Nat) : DB :=
  let deadSeats := σ.seats.filter (fun st => st.orderId == oid)
  { σ with
    orders := σ.orders.filter (fun o => o.id != oid)
    seats := σ.seats.filter (fun st => st.orderId != oid)
    selections := σ.selections.filter
      (fun sl => !(deadSeats.any (fun st => st.id == sl.seatId))) }

/-- The close_order view: audit entry (write-only, not part of the state),
then delete the order with everything under it and redirect to the room. -/
def close_order (orderId : Nat) (sess : Option Nat) (σ : DB) : DB × Resp :=
  match findOrder σ orderId with
  | none => (σ, Resp.notFound)
  | some order =>
    match findTable σ order.tableId with
    | none => (σ, Resp.serverError)
    | some table =>
      (deleteOrderCascade σ order.id, Resp.closed table.roomId)

/-- The add_seat view: auto-label max(existing numeric labels, default 0)+1,
one new unassigned Seat; the redirect reads order.table after the insert. -/
def add_seat (orderId : Nat) (sess : Option Nat) (σ : DB) : DB × Resp :=
  match findOrder σ orderId with
  | none => (σ, Resp.notFound)
  | some order =>
    let existing_labels := (σ.seats.filter (fun st => st.orderId == order.id)).map
      (fun st => st.label)
    let numeric_labels := (existing_labels.filter (fun l => pyIsDigit l)).map
      (fun l => pyIntOfStr l)
    let next_number := pyMaxD numeric_labels 0 + 1
    let new_seat : Seat :=
      { id := σ.nextId, orderId := order.id, label := intStr next_number
        assignedTo := none }
    let σ1 := { σ with seats := σ.seats ++ [new_seat], nextId := σ.nextId + 1 }
    match findTable σ order.tableId with
    | none => (σ1, Resp.serverError)
    | some table => (σ1, Resp.seatAdded table.id new_seat.id)

/-- The remove_seat view: delete the seat (selections cascade); the table
for the redirect is read before the delete. -/
def remove_seat (seatId : Nat) (sess : Option Nat) (σ : DB) : DB × Resp :=
  match findSeat σ seatId with
  | none => (σ, Resp.notFound)
  | some seat =>
    match (findOrder σ seat.orderId).bind (fun o => findTable σ o.tableId) with
    | none => (σ, Resp.serverError)
    | some table =>
      let keptSeats := σ.seats.filter (fun st => st.id != seat.id)
      let keptSelections := σ.selections.filter (fun sl => sl.seatId != seat.id)
      ({ σ with seats := keptSeats, selections := keptSelections },
        Resp.seatRemoved table.id)

/-- Attach the requested modifier and temperature catalog rows to a
selection (Django m2m add: set union, skipped on an empty request list). -/
def attachTags (modifierCatalog temperatureCatalog : List Nat)
    (modifierIds temperatureIds : List Nat)
    (sel : SeatSelection) : SeatSelection :=
  let sel1 :=
    if modifierIds.isEmpty then sel
    else { sel with modifiers := sel.modifiers ∪
      (modifierIds.filter (fun m => decide (m ∈ modifierCatalog))).toFinset }
  if temperatureIds.isEmpty then sel1
  else { sel1 with temperatures := sel1.temperatures ∪
    (temperatureIds.filter (fun t => decide (t ∈ temperatureCatalog))).toFinset }

/-- The add_selection view: strip the notes, 404 on a missing seat or item,
get-or-create the selection keyed by (seat, item), append nonempty notes
with a newline separator, then union in the requested tags. -/
def add_selection (seatId itemId : Option Nat)
    (modifierIds temperatureIds : List Nat) (rawNotes : String)
    (sess : Option Nat) (σ : DB) : DB × Resp :=
  let notes := pyStrip rawNotes
  match seatId.bind (findSeat σ) with
  | none => (σ, Resp.notFound)
  | some seat =>
    match itemId.bind (fun i => if i ∈ σ.menuItems then some i else none) with
    | none => (σ, Resp.notFound)
    | some item =>
      let resp : Resp :=
        match (findOrder σ seat.orderId).bind (fun o => findTable σ o.tableId) with
        | some table => Resp.selectionUpdated table.id seat.id
        | none => Resp.serverError
      match σ.selections.find? (fun sl => sl.seatId == seat.id && sl.itemId == item) with
      | none =>
        let created : SeatSelection :=
          { id := σ.nextId, seatId := seat.id, itemId := item, notes := notes
            modifiers := ∅, temperatures := ∅ }
        let newSel := attachTags σ.modifierCatalog σ.temperatureCatalog
          modifierIds temperatureIds created
        ({ σ with selections := σ.selections ++ [newSel], nextId := σ.nextId + 1 },
          resp)
      | some sel =>
        let withNotes :=
          if notes ≠ "" then
            { sel with notes := pyStrip (sel.notes ++ "\n" ++ notes) }
          else sel
        let updated := attachTags σ.modifierCatalog σ.temperatureCatalog
          modifierIds temperatureIds withNotes
        let newSelections := σ.selections.map
          (fun sl => if sl.id == sel.id then updated else sl)
        ({ σ with selections := newSelections }, resp)

/-- The remove_selection view: delete the row; the redirect target is read
through seat.order.table before the delete. -/
def remove_selection (selectionId : Nat) (sess : Option Nat) (σ : DB) : DB × Resp :=
  match findSelection σ selectionId with
  | none => (σ, Resp.notFound)
  | some selection =>
    match (findSeat σ selection.seatId).bind (fun st =>
        (findOrder σ st.orderId).bind (fun o => findTable σ o.tableId)) with
    | none => (σ, Resp.serverError)
    | some table =>
      let remaining := σ.selections.filter (fun sl => sl.id != selection.id)
      ({ σ with selections := remaining }, Resp.selectionRemoved table.id)

/-- The move_selection view (AJAX): 400 when either id is missing, 404 when
either row is missing, otherwise reassign the owning seat and save; the
audit entry afterwards reads selection.item and target.order.table. -/
def move_selection (selId targetSeatId : Option Nat) (sess : Option Nat)
    (σ : DB) : DB × Resp :=
  match selId, targetSeatId with
  | some sid, some tid =>
    (match findSelection σ sid with
    | none => (σ, Resp.notFound)
    | some selection =>
      match findSeat σ tid with
      | none => (σ, Resp.notFound)
      | some target =>
        let moved := σ.selections.map
          (fun sl => if sl.id == selection.id then { sl with seatId := target.id }
            else sl)
        let σ1 := { σ with selections := moved }
        match truthyId sess with
        | none => (σ1, Resp.jsonOk)
        | some _ =>
          if σ.menuItems.contains selection.itemId
              && ((findOrder σ target.orderId).bind
                (fun o => findTable σ o.tableId)).isSome then
            (σ1, Resp.jsonOk)
          else (σ1, Resp.serverError))
  | _, _ => (σ, Resp.jsonMissingParams)

/-- Composite sort key of _build_table_context: numeric labels sort
numerically and precede non-numeric labels, which sort lexically. -/
def seat_sort_le (a b : Seat) : Bool :=
  match pyIsDigit a.label, pyIsDigit b.label with
  | true, true => decide (pyToNat a.label ≤ pyToNat b.label)
  | true, false => true
  | false, true => false
  | false, false => !(decide (b.label < a.label))

/-- Seat list computed by _build_table_context: read the optional my_start
and my_end query parameters (both must be truthy digit strings, a reversed
pair is swapped), filter the open order's seats to the numeric labels in
the inclusive range when a range is active, then sort for display. -/
def visible_seats (σ : DB) (tableId : Nat) (myStartP myEndP : Option String) :
    List Seat :=
  match firstOpenOrder σ tableId with
  | none => []
  | some order =>
    let all_seats := σ.seats.filter (fun st => st.orderId == order.id)
    let parsedRange : Option (Nat × Nat) :=
      match myStartP, myEndP with
      | some s1, some s2 =>
        if !s1.isEmpty && !s2.isEmpty && pyIsDigit s1 && pyIsDigit s2 then
          let a := pyToNat s1
          let b := pyToNat s2
          if a > b then some (b, a) else some (a, b)
        else none
      | _, _ => none
    let vis :=
      match parsedRange with
      | some lohi =>
        all_seats.filter (fun (st : Seat) => pyIsDigit st.label
          && decide (lohi.1 ≤ pyToNat st.label)
          && decide (pyToNat st.label ≤ lohi.2))
      | none => all_seats
    vis.mergeSort seat_sort_le

/-! ### Claim-level predicates and concrete test states -/

/-- The seat-range inputs the spec calls malformed or contradictory:
start greater than end, only one of start and end supplied, or end
exceeding a supplied seat_count. -/
def MalformedRange (fc fs fe : Option (Option Int)) : Prop :=
  (∃ s e : Int, fs = some (some s) ∧ fe = some (some e) ∧ s > e) ∨
  ((∃ s : Int, fs = some (some s)) ∧ fe = none) ∨
  (fs = none ∧ ∃ e : Int, fe = some (some e)) ∨
  (∃ s e c : Int, fs = some (some s) ∧ fe = some (some e) ∧ fc = some (some c) ∧ e > c)

/-- The (order, label) uniqueness invariant: two distinct seat rows of the
same order never share a label. -/
def SeatLabelsUnique (σ : DB) : Prop :=
  List.Pairwise (fun a b : Seat => a.orderId = b.orderId → a.label ≠ b.label) σ.seats

/-- Primary keys already allocated stay below the fresh-key supply. -/
def FreshIds (σ : DB) : Prop :=
  (∀ o ∈ σ.orders, o.id < σ.nextId) ∧ (∀ st ∈ σ.seats, st.orderId < σ.nextId) ∧
    (∀ sl ∈ σ.selections, sl.id < σ.nextId)

/-- Concrete state with one table in room 7, one staff member, one menu
item and a few catalog tags, and no order yet. -/
def wdb0 : DB :=
  { tables := [{ id := 1, roomId := 7, partyId := none }]
    staff := [1]
    menuItems := [5]
    modifierCatalog := [10, 11]
    temperatureCatalog := [20, 21]
    orders := []
    seats := []
    selections := []
    nextId := 2 }

/-- Concrete state whose table 1 carries an open order with seats labeled
"1" to "4". -/
def wdb1 : DB :=
  { wdb0 with
    orders := [{ id := 2, tableId := 1, partyId := none, openedByStaff := some 1
                 openedAt := 0, printed := false }]
    seats := [{ id := 3, orderId := 2, label := "1", assignedTo := none },
              { id := 4, orderId := 2, label := "2", assignedTo := none },
              { id := 5, orderId := 2, label := "3", assignedTo := none },
              { id := 6, orderId := 2, label := "4", assignedTo := none }]
    nextId := 7 }

/-- Concrete state whose table 1 carries an open order with seats labeled
"1", "3" and "5". -/
def wdb2 : DB :=
  { wdb0 with
    orders := [{ id := 2, tableId := 1, partyId := none, openedByStaff := some 1
                 openedAt := 0, printed := false }]
    seats := [{ id := 3, orderId := 2, label := "1", assignedTo := none },
              { id := 4, orderId := 2, label := "3", assignedTo := none },
              { id := 5, orderId := 2, label := "5", assignedTo := none }]
    nextId := 6 }

/-- Concrete state extending wdb2 with one selection (seat 3, item 5). -/
def wdb3 : DB :=
  { wdb2 with
    selections := [{ id := 6, seatId := 3, itemId := 5, notes := "hi"
                     modifiers := {10}, temperatures := {20} }]
    nextId := 7 }

/-! ### Facts about the embedding -/

theorem digitChar_isDigit {d : Nat} (h : d < 10) : (digitChar d).isDigit = true := by
  interval_cases d <;> decide

theorem digitChar_toNat {d : Nat} (h : d < 10) : (digitChar d).toNat - 48 = d := by
  interval_cases d <;> decide

theorem natDigitsAux_ne_nil : ∀ (fuel n : Nat), n < fuel → natDigitsAux fuel n ≠ [] := by
  intro fuel
  induction fuel with
  | zero => intro n h; omega
  | succ f _ih =>
    intro n _h
    unfold natDigitsAux
    split <;> simp

theorem natDigits_ne_nil (n : Nat) : natDigits n ≠ [] :=
  natDigitsAux_ne_nil (n + 1) n (by omega)

theorem natDigitsAux_all_isDigit :
    ∀ (fuel n : Nat), n < fuel → ∀ c ∈ natDigitsAux fuel n, c.isDigit = true := by
  intro fuel
  induction fuel with
  | zero => intro n h; omega
  | succ f ih =>
    intro n hn
    unfold natDigitsAux
    split
    · next h =>
      intro c hc
      simp only [List.mem_singleton] at hc
      subst hc
      exact digitChar_isDigit h
    · next h =>
      intro c hc
      rcases List.mem_append.mp hc with hc | hc
      · have hdiv : n / 10 < n := Nat.div_lt_self (by omega) (by omega)
        exact ih (n / 10) (by omega) c hc
      · simp only [List.mem_singleton] at hc
        subst hc
        exact digitChar_isDigit (Nat.mod_lt _ (by omega))

theorem natDigits_all_isDigit (n : Nat) : ∀ c ∈ natDigits n, c.isDigit = true :=
  natDigitsAux_all_isDigit (n + 1) n (by omega)

theorem natDigitsAux_foldl :
    ∀ (fuel n : Nat), n < fuel → ∀ a : Nat,
      (natDigitsAux fuel n).foldl (fun a c => 10 * a + (c.toNat - 48)) a
        = a * 10 ^ (natDigitsAux fuel n).length + n := by
  intro fuel
  induction fuel with
  | zero => intro n h; omega
  | succ f ih =>
    intro n hn a
    unfold natDigitsAux
    split
    · next h =>
      simp only [List.foldl_cons, List.foldl_nil, List.length_singleton]
      rw [digitChar_toNat h]
      ring
    · next h =>
      rw [List.foldl_append, List.length_append]
      have hdiv : n / 10 < n := Nat.div_lt_self (by omega) (by omega)
      rw [ih (n / 10) (by omega) a]
      simp only [List.foldl_cons, List.foldl_nil, List.length_singleton]
      rw [digitChar_toNat (Nat.mod_lt _ (by omega))]
      have hdm : 10 * (n / 10) + n % 10 = n := Nat.div_add_mod n 10
      rw [pow_succ]
      nlinarith [hdm]

theorem foldl_natDigits (n : Nat) :
    ∀ a : Nat, (natDigits n).foldl (fun a c => 10 * a + (c.toNat - 48)) a
      = a * 10 ^ (natDigits n).length + n :=
  natDigitsAux_foldl (n + 1) n (by omega)

theorem pyToNat_natStr (n : Nat) : pyToNat (natStr n) = n := by
  show (natDigits n).foldl (fun a c => 10 * a + (c.toNat - 48)) 0
      = n
  rw [foldl_natDigits n 0]
  simp

theorem natStr_injective : Function.Injective natStr := by
  intro a b h
  have := congrArg pyToNat h
  rwa [pyToNat_natStr, pyToNat_natStr] at this

theorem pyIsDigit_natStr (n : Nat) : pyIsDigit (natStr n) = true := by
  show (!(natDigits n).isEmpty && (natDigits n).all Char.isDigit) = true
  rw [Bool.and_eq_true, List.all_eq_true]
  constructor
  · simp [List.isEmpty_iff, natDigits_ne_nil n]
  · exact natDigits_all_isDigit n

theorem natStr_head_isDigit (n : Nat) :
    ∀ c ∈ (natStr n).data.head?, c.isDigit = true := by
  intro c hc
  apply natDigits_all_isDigit n
  exact List.mem_of_mem_head? hc

theorem pyIntOfStr_natStr (n : Nat) : pyIntOfStr (natStr n) = (n : Int) := by
  unfold pyIntOfStr
  rw [if_neg, pyToNat_natStr]
  intro hcon
  have := natStr_head_isDigit n '-' (by rw [hcon]; rfl)
  simp at this

theorem pyIntOfStr_intStr (i : Int) : pyIntOfStr (intStr i) = i := by
  by_cases h : i < 0
  · have hdata : (intStr i).data = '-' :: (natStr i.natAbs).data := by
      unfold intStr
      rw [if_pos h]
      rfl
    unfold pyIntOfStr
    rw [hdata]
    simp only [List.head?_cons, List.tail_cons]
    rw [if_pos trivial]
    have hmk : String.mk (natStr i.natAbs).data = natStr i.natAbs := rfl
    rw [hmk, pyToNat_natStr]
    omega
  · have : intStr i = natStr i.natAbs := by
      unfold intStr
      rw [if_neg h]
    rw [this, pyIntOfStr_natStr]
    omega

theorem intStr_injective : Function.Injective intStr := by
  intro a b h
  have := congrArg pyIntOfStr h
  rwa [pyIntOfStr_intStr, pyIntOfStr_intStr] at this

theorem pyIsDigit_intStr {i : Int} (h : 0 ≤ i) : pyIsDigit (intStr i) = true := by
  unfold intStr
  rw [if_neg (by omega)]
  exact pyIsDigit_natStr _

theorem intStr_nonneg_eq {i : Int} (h : 0 ≤ i) : intStr i = natStr i.natAbs := by
  unfold intStr
  rw [if_neg (by omega)]

/-- A digit string carries a nonnegative int() value, namely its digit value. -/
theorem pyIntOfStr_of_isdigit {s : String} (h : pyIsDigit s = true) :
    pyIntOfStr s = (pyToNat s : Int) := by
  unfold pyIntOfStr
  rw [if_neg]
  intro hcon
  unfold pyIsDigit at h
  rw [Bool.and_eq_true, List.all_eq_true] at h
  have hd : '-' ∈ s.data := List.mem_of_mem_head? hcon
  have := h.2 '-' hd
  simp at this

theorem of_pyStrip_eq_self {s : String} (h : pyStrip s = s) :
    s.data.dropWhile pyIsSpace = s.data ∧
      s.data.reverse.dropWhile pyIsSpace = s.data.reverse := by
  have hdata : ((s.data.dropWhile pyIsSpace).reverse.dropWhile pyIsSpace).reverse
      = s.data := congrArg String.data h
  have h1 : (s.data.dropWhile pyIsSpace).length ≤ s.data.length :=
    (List.dropWhile_sublist _).length_le
  have h2 : ((s.data.dropWhile pyIsSpace).reverse.dropWhile pyIsSpace).length
      ≤ (s.data.dropWhile pyIsSpace).reverse.length :=
    (List.dropWhile_sublist _).length_le
  have hlen := congrArg List.length hdata
  rw [List.length_reverse] at hlen
  rw [List.length_reverse] at h2
  have hd1 : s.data.dropWhile pyIsSpace = s.data :=
    (List.dropWhile_sublist _).eq_of_length (by omega)
  refine ⟨hd1, ?_⟩
  rw [hd1] at hdata
  have := congrArg List.reverse hdata
  rwa [List.reverse_reverse] at this

theorem dropWhile_append_of_ne_nil {p : Char → Bool} {l : List Char} (m : List Char)
    (hl : l.dropWhile p = l) (hne : l ≠ []) :
    (l ++ m).dropWhile p = l ++ m := by
  cases l with
  | nil => exact absurd rfl hne
  | cons c t =>
    have hc : ¬ (p c = true) := by
      intro hpc
      rw [List.dropWhile_cons, if_pos hpc] at hl
      have := congrArg List.length hl
      have hle : (t.dropWhile p).length ≤ t.length := (List.dropWhile_sublist _).length_le
      simp only [List.length_cons] at this
      omega
    rw [List.cons_append, List.dropWhile_cons, if_neg hc]

theorem str_ne_empty_iff {s : String} : s ≠ "" ↔ s.data ≠ [] := by
  constructor
  · intro h hcon
    exact h (String.ext hcon)
  · intro h hcon
    apply h
    rw [hcon]

/-- Appending nonempty strip-invariant strings with a newline separator is
again strip-invariant, so the appended notes are kept verbatim. -/
theorem pyStrip_append_newline {a b : String} (ha : pyStrip a = a) (ha0 : a ≠ "")
    (hb : pyStrip b = b) (hb0 : b ≠ "") :
    pyStrip (a ++ "\n" ++ b) = a ++ "\n" ++ b := by
  obtain ⟨ha1, _⟩ := of_pyStrip_eq_self ha
  obtain ⟨_, hb2⟩ := of_pyStrip_eq_self hb
  have hane : a.data ≠ [] := str_ne_empty_iff.mp ha0
  have hbne : b.data ≠ [] := str_ne_empty_iff.mp hb0
  have hdata : (a ++ "\n" ++ b).data = a.data ++ '\n' :: b.data := by
    rw [String.data_append, String.data_append]
    have hnl : ("\n" : String).data = ['\n'] := by decide
    rw [hnl, List.append_assoc]
    rfl
  have hfwd : (a.data ++ '\n' :: b.data).dropWhile pyIsSpace
      = a.data ++ '\n' :: b.data :=
    dropWhile_append_of_ne_nil _ ha1 hane
  have hrev : (a.data ++ '\n' :: b.data).reverse
      = b.data.reverse ++ '\n' :: a.data.reverse := by
    rw [List.reverse_append, List.reverse_cons]
    simp
  have hbrevne : b.data.reverse ≠ [] := by
    simp [hbne]
  have hbck : (b.data.reverse ++ '\n' :: a.data.reverse).dropWhile pyIsSpace
      = b.data.reverse ++ '\n' :: a.data.reverse :=
    dropWhile_append_of_ne_nil _ hb2 hbrevne
  apply String.ext
  show (((a ++ "\n" ++ b).data.dropWhile pyIsSpace).reverse.dropWhile
      pyIsSpace).reverse = (a ++ "\n" ++ b).data
  rw [hdata, hfwd, hrev, hbck, ← hrev, List.reverse_reverse]

theorem pyIsDigit_ne_empty {s : String} (h : pyIsDigit s = true) : s ≠ "" := by
  unfold pyIsDigit at h
  rw [Bool.and_eq_true] at h
  have := h.1
  rw [str_ne_empty_iff]
  intro hcon
  rw [hcon] at this
  simp at this

theorem isEmpty_false_of_ne_empty {s : String} (h : s ≠ "") : s.isEmpty = false := by
  rw [Bool.eq_false_iff]
  intro hcon
  exact h ((String.isEmpty_iff _).mp hcon)

theorem create_order_with_seats_rollback (σ : DB) (table : Table)
    (staffId now : Nat) (seatNumbers : List Int) :
    create_order_with_seats σ table staffId now seatNumbers false
      = (σ, Resp.serverError) := by
  unfold create_order_with_seats
  simp

/-! ### The claims -/

/-- C4: start_order is atomic.  In every execution in which the seat batch
insert fails, the Order creation is rolled back with it and the database
state is left unchanged. -/
theorem start_order_atomic (tableId : Nat)
    (myStart myEnd seatCount : Option (Option Int)) (now : Nat)
    (sess : Option Nat) (σ : DB) :
    (start_order tableId myStart myEnd seatCount now false sess σ).1 = σ := by
  unfold start_order staff_required start_order_inner
  repeat' split
  all_goals simp [create_order_with_seats_rollback]

/-- C10: the seat visibility filter is symmetric in its two endpoints: a
reversed numeric range pair is swapped before filtering, so it yields the
same visible seats as the ordered pair. -/
theorem visible_seats_symm (σ : DB) (tableId : Nat) (sa sb : String)
    (ha : pyIsDigit sa = true) (hb : pyIsDigit sb = true)
    (hgt : pyToNat sa > pyToNat sb) :
    visible_seats σ tableId (some sa) (some sb)
      = visible_seats σ tableId (some sb) (some sa) := by
  unfold visible_seats
  cases firstOpenOrder σ tableId with
  | none => rfl
  | some order =>
    have hea : sa.isEmpty = false := isEmpty_false_of_ne_empty (pyIsDigit_ne_empty ha)
    have heb : sb.isEmpty = false := isEmpty_false_of_ne_empty (pyIsDigit_ne_empty hb)
    have hngt : ¬ (pyToNat sb > pyToNat sa) := by omega
    simp only [hea, heb, ha, hb, Bool.not_false, Bool.and_self, Bool.and_true,
      Bool.true_and, if_true]
    rw [if_pos hgt, if_neg hngt]

/-- C10 witness: the filter agrees on the concrete reversed pair (4, 2). -/
theorem visible_seats_symm_witness :
    visible_seats wdb1 1 (some "4") (some "2")
      = visible_seats wdb1 1 (some "2") (some "4") :=
  visible_seats_symm wdb1 1 "4" "2" (by decide) (by decide) (by decide)

/-- C2 fails on the code: close_order carries no staff_required guard, so a
request with no staff session still deletes the order instead of being
redirected to the login page. -/
theorem close_order_unauthenticated_deletes :
    (close_order 2 none wdb1).1.orders = [] ∧
      (close_order 2 none wdb1).2 = Resp.closed 7 := by
  constructor <;> rfl

/-- C2 amended: of the eight write operations only start_order is gated by
staff_required: without a truthy staff session it redirects to login and
changes nothing, while join_order, close_order, add_seat, remove_seat,
add_selection, remove_selection and move_selection never produce the login
redirect and run without a staff identity. -/
theorem staff_required_gates_start_order_only :
    (∀ tableId myStart myEnd seatCount now insertOk sess σ, truthyId sess = none →
      start_order tableId myStart myEnd seatCount now insertOk sess σ
        = (σ, Resp.loginRedirect)) ∧
    (∀ tableId fc fs fe sess σ,
      (join_order tableId fc fs fe sess σ).2 ≠ Resp.loginRedirect) ∧
    (∀ orderId sess σ, (close_order orderId sess σ).2 ≠ Resp.loginRedirect) ∧
    (∀ orderId sess σ, (add_seat orderId sess σ).2 ≠ Resp.loginRedirect) ∧
    (∀ seatId sess σ, (remove_seat seatId sess σ).2 ≠ Resp.loginRedirect) ∧
    (∀ seatId itemId mods temps notes sess σ,
      (add_selection seatId itemId mods temps notes sess σ).2 ≠ Resp.loginRedirect) ∧
    (∀ selectionId sess σ,
      (remove_selection selectionId sess σ).2 ≠ Resp.loginRedirect) ∧
    (∀ selId targetSeatId sess σ,
      (move_selection selId targetSeatId sess σ).2 ≠ Resp.loginRedirect) := by
  refine ⟨?_, ?_, ?_, ?_, ?_, ?_, ?_, ?_⟩
  · intro tableId myStart myEnd seatCount now insertOk sess σ h
    unfold start_order staff_required
    rw [h]
  · intro tableId fc fs fe sess σ
    unfold join_order join_order_create
    repeat' split
    all_goals try simp
    all_goals split <;> simp
  · intro orderId sess σ
    unfold close_order
    repeat' split
    all_goals simp
  · intro orderId sess σ
    unfold add_seat
    repeat' split
    all_goals simp
  · intro seatId sess σ
    unfold remove_seat
    repeat' split
    all_goals simp
  · intro seatId itemId mods temps notes sess σ
    unfold add_selection
    repeat' split
    all_goals simp
  · intro selectionId sess σ
    unfold remove_selection
    repeat' split
    all_goals simp
  · intro selId targetSeatId sess σ
    unfold move_selection
    repeat' split
    all_goals simp

theorem enum_seats_map_label (ns : List Int) (mk : Nat × Int → Seat)
    (hmk : ∀ pe, (mk pe).label = intStr pe.2) :
    ((ns.enum.map mk).map (fun st => st.label)) = ns.map intStr := by
  rw [List.map_map]
  have h1 : ((fun st : Seat => st.label) ∘ mk) = fun pe : Nat × Int => intStr pe.2 :=
    funext (fun pe => hmk pe)
  rw [h1]
  have h2 : (fun pe : Nat × Int => intStr pe.2) = intStr ∘ Prod.snd := rfl
  rw [h2, ← List.map_map]
  have h3 : (ns.enum.map Prod.snd) = ns := List.enumFrom_map_snd 0 ns
  rw [h3]

theorem add_seat_numeric_eq (σ : DB) (oid : Nat) :
    ((((σ.seats.filter (fun st => st.orderId == oid)).map
        (fun st => st.label)).filter (fun l => pyIsDigit l)).map
      (fun l => pyIntOfStr l)) = existing_numeric_labels σ oid := by
  simp [existing_numeric_labels, List.filter_map, List.map_map,
    List.filter_filter, Function.comp, Bool.and_comm]

/-- State reduction of add_seat on a found order. -/
theorem add_seat_state (orderId : Nat) (sess : Option Nat) (σ : DB)
    (order : Order) (hO : findOrder σ orderId = some order) :
    (add_seat orderId sess σ).1
      = { σ with
          seats := σ.seats ++
            [⟨σ.nextId, order.id,
              intStr (pyMaxD (existing_numeric_labels σ order.id) 0 + 1), none⟩]
          nextId := σ.nextId + 1 } := by
  unfold add_seat
  rw [hO]
  split
  · next heq => simp at heq
  · next b heq =>
    injection heq with hb
    subst hb
    split <;> simp [add_seat_numeric_eq]

/-- C7: add_seat creates exactly one new Seat, labeled with the successor
of the maximum existing numeric label of the order (default 0 when none),
unassigned; non-numeric labels are ignored by the maximum, and no other
relation changes. -/
theorem add_seat_spec (orderId : Nat) (sess : Option Nat) (σ : DB)
    (order : Order) (hO : findOrder σ orderId = some order) :
    ∃ st : Seat,
      (add_seat orderId sess σ).1.seats = σ.seats ++ [st] ∧
      st.label = intStr (pyMaxD (existing_numeric_labels σ order.id) 0 + 1) ∧
      st.assignedTo = none ∧ st.orderId = order.id ∧
      (add_seat orderId sess σ).1.orders = σ.orders ∧
      (add_seat orderId sess σ).1.selections = σ.selections := by
  rw [add_seat_state orderId sess σ order hO]
  exact ⟨⟨σ.nextId, order.id,
    intStr (pyMaxD (existing_numeric_labels σ order.id) 0 + 1), none⟩,
    rfl, rfl, rfl, rfl, rfl, rfl⟩

/-- C7 witness: on the order carrying seats "1", "3" and "5", add_seat
creates the single new unassigned seat labeled "6". -/
theorem add_seat_spec_witness :
    ∃ st : Seat, (add_seat 2 none wdb2).1.seats = wdb2.seats ++ [st] ∧
      st.label = "6" ∧ st.assignedTo = none := by
  obtain ⟨st, h1, h2, h3, _h4, _h5, _h6⟩ := add_seat_spec 2 none wdb2
    { id := 2, tableId := 1, partyId := none, openedByStaff := some 1
      openedAt := 0, printed := false } (by decide)
  refine ⟨st, h1, ?_, h3⟩
  rw [h2]
  decide

/-- C9: move_selection only rewrites the owning-seat reference of the
addressed selection to the target seat; its identity, item, modifiers,
temperatures and notes are untouched, every other selection is left
verbatim, and the seat, order and table relations do not change. -/
theorem move_selection_frame (sid tid : Nat) (sess : Option Nat) (σ : DB)
    (selection : SeatSelection) (target : Seat)
    (hSel : findSelection σ sid = some selection)
    (hSeat : findSeat σ tid = some target) :
    (move_selection (some sid) (some tid) sess σ).1.orders = σ.orders ∧
    (move_selection (some sid) (some tid) sess σ).1.seats = σ.seats ∧
    (move_selection (some sid) (some tid) sess σ).1.tables = σ.tables ∧
    (move_selection (some sid) (some tid) sess σ).1.selections
      = σ.selections.map (fun sl =>
          if sl.id == selection.id then { sl with seatId := target.id } else sl) ∧
    ∀ sl ∈ σ.selections,
      ∃ sl' ∈ (move_selection (some sid) (some tid) sess σ).1.selections,
        sl'.id = sl.id ∧ sl'.itemId = sl.itemId ∧ sl'.modifiers = sl.modifiers ∧
        sl'.temperatures = sl.temperatures ∧ sl'.notes = sl.notes ∧
        (sl.id ≠ selection.id → sl' = sl) ∧
        (sl.id = selection.id → sl'.seatId = target.id) := by
  have hstate : (move_selection (some sid) (some tid) sess σ).1
      = { σ with selections := σ.selections.map (fun sl =>
          if sl.id == selection.id then { sl with seatId := target.id } else sl) } := by
    unfold move_selection
    simp only [hSel, hSeat]
    cases truthyId sess with
    | none => rfl
    | some i =>
      rw [apply_ite Prod.fst, ite_self]
  rw [hstate]
  refine ⟨rfl, rfl, rfl, rfl, ?_⟩
  intro sl hsl
  refine ⟨if sl.id == selection.id then { sl with seatId := target.id } else sl,
    List.mem_map_of_mem _ hsl, ?_⟩
  by_cases h : sl.id = selection.id <;>
    simp [h]

/-- C9 witness: moving the concrete selection to seat 4 leaves the seat
and order relations unchanged. -/
theorem move_selection_frame_witness :
    (move_selection (some 6) (some 4) none wdb3).1.orders = wdb3.orders ∧
      (move_selection (some 6) (some 4) none wdb3).1.seats = wdb3.seats := by
  obtain ⟨h1, h2, _⟩ := move_selection_frame 6 4 none wdb3
    { id := 6, seatId := 3, itemId := 5, notes := "hi"
      modifiers := {10}, temperatures := {20} }
    { id := 4, orderId := 2, label := "3", assignedTo := none }
    (by decide) (by decide)
  exact ⟨h1, h2⟩

/-- C3: start_order with no explicit range creates one Order and exactly
the unassigned seats labeled str(1) to str(n) for the requested seat count
(12 when absent); with an explicit range it creates exactly the unassigned
seats labeled str(start) to str(end). -/
theorem start_order_creates_order_and_seats (tableId : Nat) (sess : Option Nat)
    (σ : DB) (table : Table) (staffId : Nat) (now : Nat)
    (hT : findTable σ tableId = some table)
    (hSess : truthyId sess = some staffId) (hStaff : staffId ∈ σ.staff) :
    (∀ (n : Int) (seatCount : Option (Option Int)),
      (seatCount = some (some n) ∨ (seatCount = none ∧ n = 12)) →
      ∃ (newOrder : Order) (newSeats : List Seat),
        (start_order tableId none none seatCount now true sess σ).1.orders
          = σ.orders ++ [newOrder] ∧
        (start_order tableId none none seatCount now true sess σ).1.seats
          = σ.seats ++ newSeats ∧
        newSeats.map (fun st => st.label) = (intRange 1 n).map intStr ∧
        (∀ st ∈ newSeats, st.assignedTo = none ∧ st.orderId = newOrder.id)) ∧
    (∀ s e : Int,
      ∃ (newOrder : Order) (newSeats : List Seat),
        (start_order tableId (some (some s)) (some (some e)) none now true sess σ).1.orders
          = σ.orders ++ [newOrder] ∧
        (start_order tableId (some (some s)) (some (some e)) none now true sess σ).1.seats
          = σ.seats ++ newSeats ∧
        newSeats.map (fun st => st.label) = (intRange s e).map intStr ∧
        (∀ st ∈ newSeats, st.assignedTo = none ∧ st.orderId = newOrder.id)) := by
  constructor
  · intro n seatCount hsc
    refine ⟨{ id := σ.nextId, tableId := table.id, partyId := table.partyId
              openedByStaff := some staffId, openedAt := now, printed := false },
      (intRange 1 n).enum.map (fun pe =>
        { id := σ.nextId + 1 + pe.1, orderId := σ.nextId, label := intStr pe.2
          assignedTo := none }), ?_⟩
    have hbody : start_order tableId none none seatCount now true sess σ
        = create_order_with_seats σ table staffId now (intRange 1 n) true := by
      unfold start_order staff_required start_order_inner
      simp only [hSess, hT]
      rw [if_pos hStaff]
      rcases hsc with rfl | ⟨rfl, rfl⟩ <;> rfl
    rw [hbody]
    unfold create_order_with_seats
    refine ⟨rfl, rfl, enum_seats_map_label _ _ (fun pe => rfl), ?_⟩
    intro st hst
    obtain ⟨pe, _hpe, rfl⟩ := List.mem_map.mp hst
    exact ⟨rfl, rfl⟩
  · intro s e
    refine ⟨{ id := σ.nextId, tableId := table.id, partyId := table.partyId
              openedByStaff := some staffId, openedAt := now, printed := false },
      (intRange s e).enum.map (fun pe =>
        { id := σ.nextId + 1 + pe.1, orderId := σ.nextId, label := intStr pe.2
          assignedTo := none }), ?_⟩
    have hbody : start_order tableId (some (some s)) (some (some e)) none now true sess σ
        = create_order_with_seats σ table staffId now (intRange s e) true := by
      unfold start_order staff_required start_order_inner
      simp only [hSess, hT]
      rw [if_pos hStaff]
    rw [hbody]
    unfold create_order_with_seats
    refine ⟨rfl, rfl, enum_seats_map_label _ _ (fun pe => rfl), ?_⟩
    intro st hst
    obtain ⟨pe, _hpe, rfl⟩ := List.mem_map.mp hst
    exact ⟨rfl, rfl⟩

/-- C3 witness: instantiation on the concrete one-table state. -/
theorem start_order_creates_order_and_seats_witness :
    ∃ (newOrder : Order) (newSeats : List Seat),
      (start_order 1 none none (some (some 4)) 0 true (some 1) wdb0).1.orders
        = wdb0.orders ++ [newOrder] ∧
      (start_order 1 none none (some (some 4)) 0 true (some 1) wdb0).1.seats
        = wdb0.seats ++ newSeats ∧
      newSeats.map (fun st => st.label) = ["1", "2", "3", "4"] ∧
      (∀ st ∈ newSeats, st.assignedTo = none ∧ st.orderId = newOrder.id) := by
  obtain ⟨newOrder, newSeats, h1, h2, h3, h4⟩ :=
    (start_order_creates_order_and_seats 1 (some 1) wdb0
      { id := 1, roomId := 7, partyId := none } 1 0
      (by decide) (by decide) (by decide)).1 4 (some (some 4)) (Or.inl rfl)
  refine ⟨newOrder, newSeats, h1, h2, ?_, h4⟩
  rw [h3]
  decide

theorem malformed_clean_none (fc fs fe : Option (Option Int))
    (h : MalformedRange fc fs fe) :
    startOrderFormClean fc fs fe = none := by
  unfold startOrderFormClean cleanIntField
  rcases h with ⟨s, e, rfl, rfl, hse⟩ | ⟨⟨s, rfl⟩, rfl⟩ | ⟨rfl, e, rfl⟩ |
    ⟨s, e, c, rfl, rfl, rfl, hec⟩
  · rcases fc with _ | ⟨_ | c⟩ <;> dsimp only <;> split_ifs <;> simp_all <;> omega
  · rcases fc with _ | ⟨_ | c⟩ <;> dsimp only <;> split_ifs <;> simp_all
  · rcases fc with _ | ⟨_ | c⟩ <;> dsimp only <;> split_ifs <;> simp_all
  · dsimp only
    split_ifs <;> simp_all <;> omega

/-- C6 fails on the code for start_order: the contradictory range with
start 5 and end 3 is not rejected there; the request succeeds and creates
an Order row (with zero seats), changing state without any validation
message. -/
theorem start_order_malformed_creates_order :
    (start_order 1 (some (some 5)) (some (some 3)) none 0 true (some 1) wdb0).1.orders.length
        = 1 ∧
      (start_order 1 (some (some 5)) (some (some 3)) none 0 true (some 1) wdb0).2
        = Resp.started 1 0 := by
  constructor <;> rfl

/-- C6 amended: join_order, which runs the StartOrderForm validation,
rejects every malformed or contradictory seat range (start greater than
end, only one endpoint supplied, end beyond a supplied seat_count) with a
user-facing message and no state change; start_order validates only
integer parsing of the range values, reporting a message with no state
change when a supplied range value is absent on one side of the pair it
read, and otherwise accepts contradictory ranges. -/
theorem seat_range_validation (tableId : Nat) (sess : Option Nat) (σ : DB)
    (table : Table) (hT : findTable σ tableId = some table) :
    (∀ fc fs fe order, firstOpenOrder σ table.id = some order →
      MalformedRange fc fs fe →
      join_order tableId fc fs fe sess σ = (σ, Resp.invalidRange table.id)) ∧
    (∀ (ps pe : Option Int) (seatCount : Option (Option Int)) (now : Nat)
        (insertOk : Bool) (staffId : Nat),
      truthyId sess = some staffId → staffId ∈ σ.staff →
      seatCount ≠ some none → (ps = none ∨ pe = none) →
      start_order tableId (some ps) (some pe) seatCount now insertOk sess σ
        = (σ, Resp.invalidRange table.id)) := by
  constructor
  · intro fc fs fe order hO hM
    unfold join_order
    simp only [hT, hO, malformed_clean_none fc fs fe hM]
  · intro ps pe seatCount now insertOk staffId hSess hStaff hSC hbad
    unfold start_order staff_required start_order_inner
    simp only [hSess, hT]
    rw [if_pos hStaff]
    rcases seatCount with _ | ⟨_ | v⟩
    · rcases hbad with rfl | rfl
      · rfl
      · rcases ps with _ | s <;> rfl
    · exact absurd rfl hSC
    · rcases hbad with rfl | rfl
      · rfl
      · rcases ps with _ | s <;> rfl

/-- C6 amended witness: the concrete reversed range 5 to 3 is rejected by
join_order with no state change, and a start_order whose end value did not
parse is rejected with no state change. -/
theorem seat_range_validation_witness :
    join_order 1 none (some (some 5)) (some (some 3)) (some 1) wdb1
        = (wdb1, Resp.invalidRange 1) ∧
      start_order 1 (some (some 5)) (some none) none 0 true (some 1) wdb1
        = (wdb1, Resp.invalidRange 1) := by
  have h := seat_range_validation 1 (some 1) wdb1
    { id := 1, roomId := 7, partyId := none } (by decide)
  constructor
  · exact h.1 none (some (some 5)) (some (some 3))
      { id := 2, tableId := 1, partyId := none, openedByStaff := some 1
        openedAt := 0, printed := false }
      (by decide) (Or.inl ⟨5, 3, rfl, rfl, by decide⟩)
  · exact h.2 (some 5) none none 0 true 1 (by decide) (by decide)
      (by simp) (Or.inr rfl)

theorem mem_existing_numeric_labels {σ : DB} {oid : Nat} {n : Int} :
    n ∈ existing_numeric_labels σ oid ↔
      ∃ st ∈ σ.seats, st.orderId = oid ∧ pyIsDigit st.label = true ∧
        pyIntOfStr st.label = n := by
  unfold existing_numeric_labels
  simp only [List.mem_map, List.mem_filter, Bool.and_eq_true, beq_iff_eq]
  constructor
  · rintro ⟨st, ⟨hmem, hoid, hdig⟩, hval⟩
    exact ⟨st, hmem, hoid, hdig, hval⟩
  · rintro ⟨st, hmem, hoid, hdig, hval⟩
    exact ⟨st, ⟨hmem, hoid, hdig⟩, hval⟩

theorem joinSeats_map_label (σ : DB) (oid : Nat) (assigned : Option Nat)
    (ns : List Int) :
    ((joinSeats σ oid assigned ns).map (fun st => st.label)) = ns.map intStr :=
  enum_seats_map_label ns _ (fun _pe => rfl)

/-- C1: on an open order, an explicit-range join_order request whose range
hits the numeric value of an existing seat label of the order fails with a
conflict naming exactly the overlapping numbers and creates nothing;
non-numeric labels never collide; with no overlap it creates exactly the
seats labeled str(start) to str(end). -/
theorem join_order_explicit_range (tableId : Nat) (fc : Option (Option Int))
    (s e : Int) (c' : Option Int) (sess : Option Nat) (σ : DB)
    (table : Table) (order : Order) (assigned : Option Nat)
    (hT : findTable σ tableId = some table)
    (hO : firstOpenOrder σ table.id = some order)
    (hF : startOrderFormClean fc (some (some s)) (some (some e))
      = some (c', some s, some e))
    (hStaff : (truthyId sess = none ∧ assigned = none) ∨
      (∃ i, truthyId sess = some i ∧ i ∈ σ.staff ∧ assigned = some i)) :
    ((∃ i ∈ intRange s e, ∃ st ∈ σ.seats, st.orderId = order.id ∧
        pyIsDigit st.label = true ∧ pyIntOfStr st.label = i) →
      ∃ L : List Int,
        join_order tableId fc (some (some s)) (some (some e)) sess σ
          = (σ, Resp.conflict L table.id) ∧
        ∀ n : Int, n ∈ L ↔ (n ∈ intRange s e ∧ ∃ st ∈ σ.seats,
          st.orderId = order.id ∧ pyIsDigit st.label = true ∧
          pyIntOfStr st.label = n)) ∧
    ((∀ i ∈ intRange s e, ¬ ∃ st ∈ σ.seats, st.orderId = order.id ∧
        pyIsDigit st.label = true ∧ pyIntOfStr st.label = i) →
      ∃ newSeats : List Seat,
        (join_order tableId fc (some (some s)) (some (some e)) sess σ).1.seats
          = σ.seats ++ newSeats ∧
        newSeats.map (fun st => st.label) = (intRange s e).map intStr ∧
        (∀ st ∈ newSeats, st.orderId = order.id) ∧
        (join_order tableId fc (some (some s)) (some (some e)) sess σ).1.orders
          = σ.orders ∧
        (join_order tableId fc (some (some s)) (some (some e)) sess σ).1.selections
          = σ.selections) := by
  have hred : join_order tableId fc (some (some s)) (some (some e)) sess σ
      = join_order_create σ table order (some s) (some e) (pyOr c' 12) assigned := by
    unfold join_order
    simp only [hT, hO, hF]
    rcases hStaff with ⟨htr, rfl⟩ | ⟨i, htr, hmem, rfl⟩
    · simp only [htr]
    · simp only [htr]
      rw [if_pos hmem]
  rw [hred]
  unfold join_order_create
  dsimp only
  constructor
  · intro hover
    refine ⟨(intRange s e).filter
      (fun i => decide (i ∈ existing_numeric_labels σ order.id)), ?_, ?_⟩
    · rw [if_neg]
      intro hempty
      rw [List.isEmpty_iff, List.filter_eq_nil_iff] at hempty
      obtain ⟨i, hi, hocc⟩ := hover
      exact hempty i hi (by
        rw [decide_eq_true_eq]
        exact mem_existing_numeric_labels.mpr hocc)
    · intro n
      rw [List.mem_filter, decide_eq_true_eq, mem_existing_numeric_labels]
  · intro hnone
    have hempty : ((intRange s e).filter
        (fun i => decide (i ∈ existing_numeric_labels σ order.id))).isEmpty = true := by
      rw [List.isEmpty_iff, List.filter_eq_nil_iff]
      intro i hi
      rw [decide_eq_true_eq, mem_existing_numeric_labels]
      exact hnone i hi
    rw [if_pos hempty]
    refine ⟨joinSeats σ order.id assigned (intRange s e), rfl,
      joinSeats_map_label σ order.id assigned (intRange s e), ?_, rfl, rfl⟩
    intro st hst
    obtain ⟨pe, _hpe, rfl⟩ := List.mem_map.mp hst
    rfl

/-- C1 witness: the theorem instantiated at the order with seats "1" to
"4" and the requested range 3 to 6. -/
theorem join_order_explicit_range_witness :
    ((∃ i ∈ intRange 3 6, ∃ st ∈ wdb1.seats, st.orderId = 2 ∧
        pyIsDigit st.label = true ∧ pyIntOfStr st.label = i) →
      ∃ L : List Int,
        join_order 1 none (some (some 3)) (some (some 6)) (some 1) wdb1
          = (wdb1, Resp.conflict L 1) ∧
        ∀ n : Int, n ∈ L ↔ (n ∈ intRange 3 6 ∧ ∃ st ∈ wdb1.seats,
          st.orderId = 2 ∧ pyIsDigit st.label = true ∧
          pyIntOfStr st.label = n)) ∧
    ((∀ i ∈ intRange 3 6, ¬ ∃ st ∈ wdb1.seats, st.orderId = 2 ∧
        pyIsDigit st.label = true ∧ pyIntOfStr st.label = i) →
      ∃ newSeats : List Seat,
        (join_order 1 none (some (some 3)) (some (some 6)) (some 1) wdb1).1.seats
          = wdb1.seats ++ newSeats ∧
        newSeats.map (fun st => st.label) = (intRange 3 6).map intStr ∧
        (∀ st ∈ newSeats, st.orderId = 2) ∧
        (join_order 1 none (some (some 3)) (some (some 6)) (some 1) wdb1).1.orders
          = wdb1.orders ∧
        (join_order 1 none (some (some 3)) (some (some 6)) (some 1) wdb1).1.selections
          = wdb1.selections) :=
  join_order_explicit_range 1 none 3 6 none (some 1) wdb1
    { id := 1, roomId := 7, partyId := none }
    { id := 2, tableId := 1, partyId := none, openedByStaff := some 1
      openedAt := 0, printed := false }
    (some 1) (by decide) (by decide) (by decide)
    (Or.inr ⟨1, by decide, by decide, rfl⟩)

theorem attachTags_fields (mcat tcat : List Nat) (m t : List Nat) (sel : SeatSelection) :
    (attachTags mcat tcat m t sel).id = sel.id ∧
      (attachTags mcat tcat m t sel).seatId = sel.seatId ∧
      (attachTags mcat tcat m t sel).itemId = sel.itemId ∧
      (attachTags mcat tcat m t sel).notes = sel.notes := by
  unfold attachTags
  split_ifs <;> exact ⟨rfl, rfl, rfl, rfl⟩

theorem attachTags_modifiers (mcat tcat : List Nat) (m t : List Nat) (sel : SeatSelection)
    (hm : ∀ x ∈ m, x ∈ mcat) :
    (attachTags mcat tcat m t sel).modifiers = sel.modifiers ∪ m.toFinset := by
  have hfil : m.filter (fun x => decide (x ∈ mcat)) = m :=
    List.filter_eq_self.mpr (fun a ha => decide_eq_true (hm a ha))
  unfold attachTags
  split_ifs with h1 h2 h3
  · rw [List.isEmpty_iff] at h1
    subst h1
    simp
  · rw [List.isEmpty_iff] at h1
    subst h1
    simp
  · rw [hfil]
  · rw [hfil]

theorem attachTags_temperatures (mcat tcat : List Nat) (m t : List Nat) (sel : SeatSelection)
    (ht : ∀ x ∈ t, x ∈ tcat) :
    (attachTags mcat tcat m t sel).temperatures = sel.temperatures ∪ t.toFinset := by
  have hfil : t.filter (fun x => decide (x ∈ tcat)) = t :=
    List.filter_eq_self.mpr (fun a ha => decide_eq_true (ht a ha))
  unfold attachTags
  split_ifs with h1 h2 h3
  · rw [List.isEmpty_iff] at h2
    subst h2
    simp
  · rw [hfil]
  · rw [List.isEmpty_iff] at h3
    subst h3
    simp
  · rw [hfil]

/-- Reduction of add_selection once the seat and the menu item resolve:
the get-or-create branches written out. -/
theorem add_selection_state (sid item : Nat) (m t : List Nat)
    (rawNotes : String) (sess : Option Nat) (σ : DB) (seat : Seat)
    (hSeat : findSeat σ sid = some seat) (hItem : item ∈ σ.menuItems) :
    (add_selection (some sid) (some item) m t rawNotes sess σ).1 =
      match σ.selections.find?
          (fun sl => sl.seatId == seat.id && sl.itemId == item) with
      | none =>
        { σ with
          selections := σ.selections ++
            [attachTags σ.modifierCatalog σ.temperatureCatalog m t
              { id := σ.nextId, seatId := seat.id, itemId := item
                notes := pyStrip rawNotes, modifiers := ∅, temperatures := ∅ }]
          nextId := σ.nextId + 1 }
      | some sel =>
        { σ with
          selections := σ.selections.map (fun sl =>
            if sl.id == sel.id then
              attachTags σ.modifierCatalog σ.temperatureCatalog m t
                (if pyStrip rawNotes ≠ "" then
                  { sel with notes := pyStrip (sel.notes ++ "\n" ++ pyStrip rawNotes) }
                else sel)
            else sl) } := by
  unfold add_selection
  simp only [Option.some_bind, hSeat, if_pos hItem]
  cases hfind : σ.selections.find?
      (fun sl => sl.seatId == seat.id && sl.itemId == item) with
  | none =>
    cases (findOrder σ seat.orderId).bind (fun o => findTable σ o.tableId) <;> rfl
  | some sel =>
    cases (findOrder σ seat.orderId).bind (fun o => findTable σ o.tableId) <;> rfl

/-- C8: add_selection gets-or-creates the single selection keyed by the
seat and item; on a second call with fresh nonempty notes the new notes are
appended behind a newline (the earlier notes stay as a prefix), and the
modifier and temperature sets are unions across the calls. -/
theorem add_selection_accumulates (sid item : Nat) (m1 t1 m2 t2 : List Nat)
    (n1 n2 : String) (sess1 sess2 : Option Nat) (σ : DB) (seat : Seat)
    (hSeat : findSeat σ sid = some seat)
    (hItem : item ∈ σ.menuItems)
    (hNone : ∀ sl ∈ σ.selections, ¬(sl.seatId = seat.id ∧ sl.itemId = item))
    (hFresh : ∀ sl ∈ σ.selections, sl.id < σ.nextId)
    (hm1 : ∀ x ∈ m1, x ∈ σ.modifierCatalog) (hm2 : ∀ x ∈ m2, x ∈ σ.modifierCatalog)
    (ht1 : ∀ x ∈ t1, x ∈ σ.temperatureCatalog) (ht2 : ∀ x ∈ t2, x ∈ σ.temperatureCatalog)
    (hs1 : pyStrip n1 = n1) (h1ne : n1 ≠ "")
    (hs2 : pyStrip n2 = n2) (h2ne : n2 ≠ "") :
    ∃ sel : SeatSelection,
      ((add_selection (some sid) (some item) m2 t2 n2 sess2
          (add_selection (some sid) (some item) m1 t1 n1 sess1 σ).1).1).selections.filter
          (fun sl => sl.seatId == seat.id && sl.itemId == item) = [sel] ∧
      sel.notes = n1 ++ "\n" ++ n2 ∧
      sel.modifiers = m1.toFinset ∪ m2.toFinset ∧
      sel.temperatures = t1.toFinset ∪ t2.toFinset ∧
      ((add_selection (some sid) (some item) m2 t2 n2 sess2
          (add_selection (some sid) (some item) m1 t1 n1 sess1 σ).1).1).selections.length
        = σ.selections.length + 1 := by
  have hkey : ∀ sl ∈ σ.selections,
      (sl.seatId == seat.id && sl.itemId == item) = false := by
    intro sl hsl
    have := hNone sl hsl
    rw [Bool.eq_false_iff]
    intro hcon
    rw [Bool.and_eq_true, beq_iff_eq, beq_iff_eq] at hcon
    exact this hcon
  have hfind1 : σ.selections.find?
      (fun sl => sl.seatId == seat.id && sl.itemId == item) = none :=
    List.find?_eq_none.mpr (fun sl hsl => by rw [hkey sl hsl]; simp)
  set created : SeatSelection :=
    { id := σ.nextId, seatId := seat.id, itemId := item
      notes := pyStrip n1, modifiers := ∅, temperatures := ∅ } with hcreated
  set newSel : SeatSelection := attachTags σ.modifierCatalog σ.temperatureCatalog m1 t1 created with hnewSel
  have hσ1 : (add_selection (some sid) (some item) m1 t1 n1 sess1 σ).1
      = { σ with selections := σ.selections ++ [newSel], nextId := σ.nextId + 1 } := by
    rw [add_selection_state sid item m1 t1 n1 sess1 σ seat hSeat hItem, hfind1]
  obtain ⟨hfid, hfseat, hfitem, hfnotes⟩ := attachTags_fields σ.modifierCatalog σ.temperatureCatalog m1 t1 created
  have hnid : newSel.id = σ.nextId := hfid
  have hnseat : newSel.seatId = seat.id := hfseat
  have hnitem : newSel.itemId = item := hfitem
  have hnnotes : newSel.notes = n1 := by rw [hfnotes, hcreated, hs1]
  have hnmods : newSel.modifiers = m1.toFinset := by
    rw [hnewSel, attachTags_modifiers σ.modifierCatalog σ.temperatureCatalog m1 t1 created hm1, hcreated]
    exact Finset.empty_union _
  have hntemps : newSel.temperatures = t1.toFinset := by
    rw [hnewSel, attachTags_temperatures σ.modifierCatalog σ.temperatureCatalog m1 t1 created ht1, hcreated]
    exact Finset.empty_union _
  have hSeat1 : findSeat (add_selection (some sid) (some item) m1 t1 n1 sess1 σ).1 sid
      = some seat := by rw [hσ1]; exact hSeat
  have hItem1 : item ∈ ((add_selection (some sid) (some item) m1 t1 n1 sess1 σ).1).menuItems := by
    rw [hσ1]; exact hItem
  have hpnew : (newSel.seatId == seat.id && newSel.itemId == item) = true := by
    rw [hnseat, hnitem]
    simp
  have hfind2 : ((add_selection (some sid) (some item) m1 t1 n1 sess1 σ).1).selections.find?
      (fun sl => sl.seatId == seat.id && sl.itemId == item) = some newSel := by
    rw [hσ1]
    show (σ.selections ++ [newSel]).find?
      (fun sl => sl.seatId == seat.id && sl.itemId == item) = some newSel
    rw [List.find?_append, hfind1, Option.none_or, List.find?_cons, hpnew]
  have happ : pyStrip (newSel.notes ++ "\n" ++ n2) = n1 ++ "\n" ++ n2 := by
    rw [hnnotes]
    exact pyStrip_append_newline hs1 h1ne hs2 h2ne
  have hσ2 : ((add_selection (some sid) (some item) m2 t2 n2 sess2
      (add_selection (some sid) (some item) m1 t1 n1 sess1 σ).1).1)
      = { σ with
          selections := σ.selections ++
            [attachTags σ.modifierCatalog σ.temperatureCatalog m2 t2
              { newSel with notes := n1 ++ "\n" ++ n2 }]
          nextId := σ.nextId + 1 } := by
    rw [add_selection_state sid item m2 t2 n2 sess2 _ seat hSeat1 hItem1, hfind2]
    rw [hσ1]
    dsimp only
    rw [hs2, if_pos h2ne, happ, List.map_append]
    have hmapold : σ.selections.map (fun sl =>
        if sl.id == newSel.id then
          attachTags σ.modifierCatalog σ.temperatureCatalog m2 t2
            { newSel with notes := n1 ++ "\n" ++ n2 }
        else sl) = σ.selections := by
      conv_rhs => rw [← List.map_id σ.selections]
      apply List.map_congr_left
      intro sl hsl
      have hlt := hFresh sl hsl
      have hne : (sl.id == newSel.id) = false := by
        rw [hnid, beq_eq_false_iff_ne]
        omega
      rw [hne]
      rfl
    rw [hmapold]
    have hmapnew : [newSel].map (fun sl =>
        if sl.id == newSel.id then
          attachTags σ.modifierCatalog σ.temperatureCatalog m2 t2
            { newSel with notes := n1 ++ "\n" ++ n2 }
        else sl) = [attachTags σ.modifierCatalog σ.temperatureCatalog m2 t2
          { newSel with notes := n1 ++ "\n" ++ n2 }] := by
      rw [List.map_singleton, beq_self_eq_true]
      rfl
    rw [hmapnew]
  refine ⟨attachTags σ.modifierCatalog σ.temperatureCatalog m2 t2
    { newSel with notes := n1 ++ "\n" ++ n2 }, ?_, ?_, ?_, ?_, ?_⟩
  · rw [hσ2]
    show (σ.selections ++ [attachTags σ.modifierCatalog σ.temperatureCatalog m2 t2
        { newSel with notes := n1 ++ "\n" ++ n2 }]).filter
      (fun sl => sl.seatId == seat.id && sl.itemId == item) = _
    rw [List.filter_append]
    have hfilold : σ.selections.filter
        (fun sl => sl.seatId == seat.id && sl.itemId == item) = [] :=
      List.filter_eq_nil_iff.mpr (fun sl hsl => by rw [hkey sl hsl]; simp)
    obtain ⟨_, hfseat2, hfitem2, _⟩ := attachTags_fields σ.modifierCatalog
      σ.temperatureCatalog m2 t2 { newSel with notes := n1 ++ "\n" ++ n2 }
    have hpfin : ((attachTags σ.modifierCatalog σ.temperatureCatalog m2 t2
          { newSel with notes := n1 ++ "\n" ++ n2 }).seatId == seat.id
        && (attachTags σ.modifierCatalog σ.temperatureCatalog m2 t2
          { newSel with notes := n1 ++ "\n" ++ n2 }).itemId == item) = true := by
      rw [hfseat2, hfitem2]
      show (newSel.seatId == seat.id && newSel.itemId == item) = true
      exact hpnew
    rw [hfilold, List.filter_singleton, hpfin]
    rfl
  · obtain ⟨_, _, _, hfnotes2⟩ := attachTags_fields σ.modifierCatalog
      σ.temperatureCatalog m2 t2 { newSel with notes := n1 ++ "\n" ++ n2 }
    rw [hfnotes2]
  · rw [attachTags_modifiers σ.modifierCatalog σ.temperatureCatalog m2 t2 _ hm2]
    show newSel.modifiers ∪ m2.toFinset = _
    rw [hnmods]
  · rw [attachTags_temperatures σ.modifierCatalog σ.temperatureCatalog m2 t2 _ ht2]
    show newSel.temperatures ∪ t2.toFinset = _
    rw [hntemps]
  · rw [hσ2]
    simp

/-- C8 witness: two concrete calls with notes a then b and disjoint tag
sets produce one selection with notes a, newline, b and both tag unions. -/
theorem add_selection_accumulates_witness :
    ∃ sel : SeatSelection,
      ((add_selection (some 3) (some 5) [11] [21] "b" none
          (add_selection (some 3) (some 5) [10] [20] "a" none wdb2).1).1).selections.filter
          (fun sl => sl.seatId == 3 && sl.itemId == 5) = [sel] ∧
      sel.notes = "a" ++ "\n" ++ "b" ∧
      sel.modifiers = ([10] : List Nat).toFinset ∪ ([11] : List Nat).toFinset ∧
      sel.temperatures = ([20] : List Nat).toFinset ∪ ([21] : List Nat).toFinset ∧
      ((add_selection (some 3) (some 5) [11] [21] "b" none
          (add_selection (some 3) (some 5) [10] [20] "a" none wdb2).1).1).selections.length
        = wdb2.selections.length + 1 :=
  add_selection_accumulates 3 5 [10] [20] [11] [21] "a" "b" none none wdb2
    { id := 3, orderId := 2, label := "1", assignedTo := none }
    (by decide) (by decide) (by decide) (by decide) (by decide) (by decide)
    (by decide) (by decide) (by decide) (by decide) (by decide) (by decide)

theorem le_foldl_max (l : List Int) :
    ∀ a x : Int, (x = a ∨ x ∈ l) → x ≤ l.foldl max a := by
  induction l with
  | nil =>
    rintro a x (rfl | h)
    · exact le_refl x
    · cases h
  | cons y ys ih =>
    rintro a x (rfl | h)
    · exact le_trans (le_max_left x y) (ih (max x y) (max x y) (Or.inl rfl))
    · rcases List.mem_cons.mp h with rfl | h
      · exact le_trans (le_max_right a x) (ih (max a x) (max a x) (Or.inl rfl))
      · exact ih (max a y) x (Or.inr h)

theorem le_pyMaxD {xs : List Int} {x : Int} (h : x ∈ xs) (d : Int) :
    x ≤ pyMaxD xs d := by
  cases xs with
  | nil => cases h
  | cons y ys =>
    show x ≤ ys.foldl max y
    rcases List.mem_cons.mp h with rfl | h
    · exact le_foldl_max ys x x (Or.inl rfl)
    · exact le_foldl_max ys y x (Or.inr h)

theorem pyMaxD_nonneg {xs : List Int} (h : ∀ x ∈ xs, 0 ≤ x) :
    0 ≤ pyMaxD xs 0 := by
  cases xs with
  | nil => exact le_refl 0
  | cons y ys =>
    show 0 ≤ ys.foldl max y
    exact le_trans (h y (List.mem_cons_self y ys))
      (le_foldl_max ys y y (Or.inl rfl))

theorem intRange_nodup (lo hi : Int) : (intRange lo hi).Nodup := by
  unfold intRange
  apply List.Nodup.map
  · intro a b hab
    have hab' : lo + (a : Int) = lo + (b : Int) := hab
    have : (a : Int) = b := by omega
    exact_mod_cast this
  · exact List.nodup_range _

theorem mem_intRange {lo hi i : Int} (h : i ∈ intRange lo hi) :
    lo ≤ i ∧ i ≤ hi := by
  unfold intRange at h
  obtain ⟨k, hk, rfl⟩ := List.mem_map.mp h
  rw [List.mem_range] at hk
  have := Int.lt_toNat.mp hk
  omega

theorem existing_numeric_labels_nonneg {σ : DB} {oid : Nat} :
    ∀ x ∈ existing_numeric_labels σ oid, 0 ≤ x := by
  intro x hx
  rw [mem_existing_numeric_labels] at hx
  obtain ⟨st, _, _, hdig, hval⟩ := hx
  rw [← hval, pyIntOfStr_of_isdigit hdig]
  exact Int.natCast_nonneg _

/-- The auto-label of add_seat exceeds every numeric label of the order,
so it collides with no existing seat label of that order. -/
theorem add_seat_label_fresh (σ : DB) (oid : Nat) :
    ∀ st ∈ σ.seats, st.orderId = oid →
      st.label ≠ intStr (pyMaxD (existing_numeric_labels σ oid) 0 + 1) := by
  intro st hst hoid hcon
  have hM0 : 0 ≤ pyMaxD (existing_numeric_labels σ oid) 0 :=
    pyMaxD_nonneg existing_numeric_labels_nonneg
  by_cases hdig : pyIsDigit st.label = true
  · have hmem : pyIntOfStr st.label ∈ existing_numeric_labels σ oid :=
      mem_existing_numeric_labels.mpr ⟨st, hst, hoid, hdig, rfl⟩
    have hle := le_pyMaxD hmem 0
    have heq : pyIntOfStr st.label
        = pyMaxD (existing_numeric_labels σ oid) 0 + 1 := by
      rw [hcon, pyIntOfStr_intStr]
    omega
  · exact hdig (by rw [hcon]; exact pyIsDigit_intStr (by omega))

theorem pairwise_label_of_nodup {l : List Seat}
    (h : (l.map (fun st => st.label)).Nodup) :
    l.Pairwise (fun a b : Seat => a.label ≠ b.label) :=
  List.pairwise_map.mp h

/-- Appending a batch of same-order seats with fresh, pairwise distinct
labels preserves the (order, label) uniqueness invariant. -/
theorem seatLabelsUnique_append {σ : DB} (hU : SeatLabelsUnique σ)
    (new : List Seat) (oid : Nat)
    (hoid : ∀ st ∈ new, st.orderId = oid)
    (hnodup : (new.map (fun st => st.label)).Nodup)
    (hcross : ∀ a ∈ σ.seats, a.orderId = oid → ∀ b ∈ new, a.label ≠ b.label) :
    List.Pairwise (fun a b : Seat => a.orderId = b.orderId → a.label ≠ b.label)
      (σ.seats ++ new) := by
  rw [List.pairwise_append]
  refine ⟨hU, ?_, ?_⟩
  · refine List.Pairwise.imp ?_ (pairwise_label_of_nodup hnodup)
    intro a b hne _
    exact hne
  · intro a ha b hb haob
    exact hcross a ha (by rw [haob, hoid b hb]) b hb

theorem mem_joinSeats {σ : DB} {oid : Nat} {assigned : Option Nat}
    {ns : List Int} {b : Seat} (hb : b ∈ joinSeats σ oid assigned ns) :
    b.orderId = oid ∧ ∃ i ∈ ns, b.label = intStr i := by
  unfold joinSeats at hb
  obtain ⟨pe, hpe, rfl⟩ := List.mem_map.mp hb
  refine ⟨rfl, pe.2, ?_, rfl⟩
  have h2 : pe.2 ∈ ns.enum.map Prod.snd := List.mem_map_of_mem _ hpe
  have h3 : ns.enum.map Prod.snd = ns := List.enumFrom_map_snd 0 ns
  rwa [h3] at h2

theorem formClean_range_pos {fc fs fe : Option (Option Int)} {c : Option Int}
    {s e : Int} (h : startOrderFormClean fc fs fe = some (c, some s, some e)) :
    1 ≤ s ∧ 1 ≤ e := by
  unfold startOrderFormClean cleanIntField at h
  rcases fs with _ | ⟨_ | sv⟩ <;> rcases fe with _ | ⟨_ | ev⟩ <;>
    rcases fc with _ | ⟨_ | cv⟩ <;> dsimp only at h <;>
    first
      | (split_ifs at h <;> simp_all <;> omega)
      | (simp_all <;> omega)
      | simp_all

theorem start_order_unique (σ : DB) (hU : SeatLabelsUnique σ)
    (hFresh : ∀ st ∈ σ.seats, st.orderId < σ.nextId)
    (tableId : Nat) (ms me sc : Option (Option Int)) (now : Nat) (ok : Bool)
    (sess : Option Nat) :
    SeatLabelsUnique (start_order tableId ms me sc now ok sess σ).1 := by
  have hcreate : ∀ (table : Table) (staffId : Nat) (ns : List Int), ns.Nodup →
      SeatLabelsUnique (create_order_with_seats σ table staffId now ns ok).1 := by
    intro table staffId ns hns
    unfold create_order_with_seats
    split
    · show List.Pairwise _ (σ.seats ++ _)
      apply seatLabelsUnique_append hU _ σ.nextId
      · intro st hst
        obtain ⟨pe, _hpe, rfl⟩ := List.mem_map.mp hst
        rfl
      · rw [enum_seats_map_label ns _ (fun _pe => rfl)]
        exact hns.map intStr_injective
      · intro a ha hoid b _hb
        have := hFresh a ha
        omega
    · exact hU
  unfold start_order staff_required start_order_inner
  repeat' split
  all_goals try exact hU
  all_goals exact hcreate _ _ _ (intRange_nodup _ _)

theorem join_order_create_unique (σ : DB) (hU : SeatLabelsUnique σ)
    (table : Table) (order : Order) (fc fs fe : Option (Option Int))
    (cleaned : Option Int × Option Int × Option Int) (assigned : Option Nat)
    (hclean : startOrderFormClean fc fs fe = some cleaned) :
    SeatLabelsUnique (join_order_create σ table order cleaned.2.1 cleaned.2.2
      (pyOr cleaned.1 12) assigned).1 := by
  obtain ⟨c0, cs, ce⟩ := cleaned
  have hcount : SeatLabelsUnique
      ({ σ with
        seats := σ.seats ++ joinSeats σ order.id assigned
          ((intRange 1 (pyOr c0 12)).filter (fun i =>
            !(decide (pyIntOfStr (intStr i) ∈ existing_numeric_labels σ order.id))))
        nextId := σ.nextId + (joinSeats σ order.id assigned
          ((intRange 1 (pyOr c0 12)).filter (fun i =>
            !(decide (pyIntOfStr (intStr i) ∈ existing_numeric_labels σ order.id))))).length } : DB) := by
    show List.Pairwise _ (σ.seats ++ _)
    apply seatLabelsUnique_append hU _ order.id
    · intro st hst
      exact (mem_joinSeats hst).1
    · rw [joinSeats_map_label]
      exact ((intRange_nodup 1 (pyOr c0 12)).filter _).map intStr_injective
    · intro a ha hoid b hb hcon
      obtain ⟨_, i, hi, hlbl⟩ := mem_joinSeats hb
      rw [List.mem_filter] at hi
      obtain ⟨hirange, hifilter⟩ := hi
      rw [Bool.not_eq_eq_eq_not, Bool.not_true, decide_eq_false_iff_not] at hifilter
      by_cases hdig : pyIsDigit a.label = true
      · have hmem : pyIntOfStr a.label ∈ existing_numeric_labels σ order.id :=
          mem_existing_numeric_labels.mpr ⟨a, ha, hoid, hdig, rfl⟩
        rw [hcon, hlbl] at hmem
        exact hifilter hmem
      · have h1 : 1 ≤ i := (mem_intRange hirange).1
        exact hdig (by rw [hcon, hlbl]; exact pyIsDigit_intStr (by omega))
  unfold join_order_create
  rcases cs with _ | s
  · exact hcount
  · rcases ce with _ | e
    · exact hcount
    · dsimp only
      split
      · next hempty =>
        show List.Pairwise _ (σ.seats ++ _)
        rw [List.isEmpty_iff, List.filter_eq_nil_iff] at hempty
        apply seatLabelsUnique_append hU _ order.id
        · intro st hst
          exact (mem_joinSeats hst).1
        · rw [joinSeats_map_label]
          exact (intRange_nodup s e).map intStr_injective
        · intro a ha hoid b hb hcon
          obtain ⟨_, i, hi, hlbl⟩ := mem_joinSeats hb
          by_cases hdig : pyIsDigit a.label = true
          · have hmem : pyIntOfStr a.label ∈ existing_numeric_labels σ order.id :=
              mem_existing_numeric_labels.mpr ⟨a, ha, hoid, hdig, rfl⟩
            have hnotocc := hempty i hi
            rw [decide_eq_true_eq] at hnotocc
            apply hnotocc
            rw [hcon, hlbl, pyIntOfStr_intStr] at hmem
            exact hmem
          · have h1 : 1 ≤ s := (formClean_range_pos hclean).1
            have hsi : s ≤ i := (mem_intRange hi).1
            exact hdig (by rw [hcon, hlbl]; exact pyIsDigit_intStr (by omega))
      · exact hU

theorem join_order_unique (σ : DB) (hU : SeatLabelsUnique σ)
    (tableId : Nat) (fc fs fe : Option (Option Int)) (sess : Option Nat) :
    SeatLabelsUnique (join_order tableId fc fs fe sess σ).1 := by
  unfold join_order
  repeat' split
  all_goals try exact hU
  all_goals exact join_order_create_unique σ hU _ _ fc fs fe _ _ (by assumption)

theorem add_seat_unique (σ : DB) (hU : SeatLabelsUnique σ) (orderId : Nat)
    (sess : Option Nat) :
    SeatLabelsUnique (add_seat orderId sess σ).1 := by
  cases hO : findOrder σ orderId with
  | none =>
    unfold add_seat
    rw [hO]
    exact hU
  | some order =>
    rw [add_seat_state orderId sess σ order hO]
    show List.Pairwise _ (σ.seats ++ _)
    apply seatLabelsUnique_append hU _ order.id
    · intro st hst
      rw [List.mem_singleton] at hst
      subst hst
      rfl
    · simp
    · intro a ha hoid b hb
      rw [List.mem_singleton] at hb
      subst hb
      exact add_seat_label_fresh σ order.id a ha hoid

/-- C5: seat labels within one order stay pairwise distinct: start_order
creates distinct fresh-order labels, join_order (both paths) adds only
labels free of collisions within the order, add_seat's auto-label exceeds
every numeric label of the order and so never equals an existing label. -/
theorem seat_label_uniqueness (σ : DB) (hU : SeatLabelsUnique σ)
    (hFresh : ∀ st ∈ σ.seats, st.orderId < σ.nextId) :
    (∀ (tableId : Nat) (ms me sc : Option (Option Int)) (now : Nat) (ok : Bool)
        (sess : Option Nat),
      SeatLabelsUnique (start_order tableId ms me sc now ok sess σ).1) ∧
    (∀ (tableId : Nat) (fc fs fe : Option (Option Int)) (sess : Option Nat),
      SeatLabelsUnique (join_order tableId fc fs fe sess σ).1) ∧
    (∀ (orderId : Nat) (sess : Option Nat),
      SeatLabelsUnique (add_seat orderId sess σ).1) ∧
    (∀ oid : Nat, ∀ st ∈ σ.seats, st.orderId = oid →
      st.label ≠ intStr (pyMaxD (existing_numeric_labels σ oid) 0 + 1)) :=
  ⟨fun tableId ms me sc now ok sess =>
      start_order_unique σ hU hFresh tableId ms me sc now ok sess,
    fun tableId fc fs fe sess => join_order_unique σ hU tableId fc fs fe sess,
    fun orderId sess => add_seat_unique σ hU orderId sess,
    fun oid => add_seat_label_fresh σ oid⟩

/-- C5 witness: the invariant holds after concrete add_seat and join_order
calls on the seeded states. -/
theorem seat_label_uniqueness_witness :
    SeatLabelsUnique (add_seat 2 none wdb2).1 ∧
      SeatLabelsUnique (join_order 1 none (some (some 5)) (some (some 8)) (some 1) wdb1).1 :=
  ⟨(seat_label_uniqueness wdb2 (by unfold SeatLabelsUnique; decide) (by decide)).2.2.1 2 none,
    (seat_label_uniqueness wdb1 (by unfold SeatLabelsUnique; decide) (by decide)).2.1 1 none
      (some (some 5)) (some (some 8)) (some 1)⟩

/-- C2 amended witness: a sessionless start_order on the concrete state is
turned away at the login page, while a sessionless close_order is not. -/
theorem staff_required_gates_start_order_only_witness :
    start_order 1 none none none 0 true none wdb1 = (wdb1, Resp.loginRedirect) ∧
      (close_order 2 none wdb1).2 ≠ Resp.loginRedirect := by
  constructor
  · exact staff_required_gates_start_order_only.1 1 none none none 0 true none wdb1
      (by decide)
  · exact staff_required_gates_start_order_only.2.2.1 2 none wdb1

end Orders
